import Mathlib

/-!
Verification of the donatemail repository (tledoux/donatemail).

Python strings are modelled as lists of Unicode code points (`List Nat`);
bytes as lists of naturals below 256.  Fallible operations return
`Option` or `Except`.  Each definition is a shallow embedding of the
correspondingly named function of the Python sources.
-/

namespace DonateMail

/-! ### mutf7.py : character classes -/

/-- `ascii_codes = set(range(0x20, 0x7F))` of mutf7.py: printable ASCII. -/
def isAsciiCode (c : Nat) : Bool := 0x20 ≤ c && c ≤ 0x7E

/-- The modified-base64 alphabet of the third regex of `__check_utf7_format`
(`[A-Za-z0-9+,]`). -/
def isB64Mod (c : Nat) : Bool :=
  (65 ≤ c && c ≤ 90) || (97 ≤ c && c ≤ 122) || (48 ≤ c && c ≤ 57) || c == 43 || c == 44

/-- The standard base64 alphabet (`[A-Za-z0-9+/]`), used by Python
`base64.b64encode` / `b64decode`. -/
def isB64Std (c : Nat) : Bool :=
  (65 ≤ c && c ≤ 90) || (97 ≤ c && c ≤ 122) || (48 ≤ c && c ≤ 57) || c == 43 || c == 47

/-- The base64 digit table of `base64.b64encode`. -/
def b64Char (n : Nat) : Nat :=
  if n < 26 then 65 + n
  else if n < 52 then 97 + (n - 26)
  else if n < 62 then 48 + (n - 52)
  else if n = 62 then 43
  else 47

/-- Inverse digit lookup of `base64.b64decode`. -/
def b64Inv (c : Nat) : Nat :=
  if 65 ≤ c && c ≤ 90 then c - 65
  else if 97 ≤ c && c ≤ 122 then c - 97 + 26
  else if 48 ≤ c && c ≤ 57 then c - 48 + 52
  else if c == 43 then 62
  else 63

/-! ### UTF-16BE codec (Python `str.encode("utf-16be")` / `bytes.decode("utf-16be")`) -/

/-- UTF-16BE encoding of one code point.  CPython raises
`UnicodeEncodeError` on surrogate code points, modelled as `none`. -/
def utf16beChar (c : Nat) : Option (List Nat) :=
  if c < 0x10000 then
    if 0xD800 ≤ c && c ≤ 0xDFFF then none
    else some [c / 256, c % 256]
  else if c < 0x110000 then
    let v := c - 0x10000
    let hi := 0xD800 + v / 0x400
    let lo := 0xDC00 + v % 0x400
    some [hi / 256, hi % 256, lo / 256, lo % 256]
  else none

/-- `text.encode("utf-16be")`. -/
def utf16beEncode : List Nat → Option (List Nat)
  | [] => some []
  | c :: rest => do
    let b ← utf16beChar c
    let bs ← utf16beEncode rest
    pure (b ++ bs)

/-- Group a byte list into big-endian 16-bit units; odd length is a
decoding error (`none`). -/
def toUnits : List Nat → Option (List Nat)
  | [] => some []
  | [_] => none
  | b1 :: b2 :: rest => (fun us => (b1 * 256 + b2) :: us) <$> toUnits rest

/-- Combine UTF-16 units back into code points; an unpaired surrogate
unit is a decoding error (`none`). -/
def utf16beDecodeUnits : List Nat → Option (List Nat)
  | [] => some []
  | u :: rest =>
    if 0xD800 ≤ u && u ≤ 0xDBFF then
      match rest with
      | [] => none
      | v :: rest2 =>
        if 0xDC00 ≤ v && v ≤ 0xDFFF then
          (fun cs => (0x10000 + (u - 0xD800) * 0x400 + (v - 0xDC00)) :: cs) <$>
            utf16beDecodeUnits rest2
        else none
    else if 0xDC00 ≤ u && u ≤ 0xDFFF then none
    else (fun cs => u :: cs) <$> utf16beDecodeUnits rest

/-! ### base64 codec (Python `base64.b64encode` / `base64.b64decode`) -/

/-- `base64.b64encode`: 3-byte groups to 4 digits, with `=` (61) padding. -/
def b64encode : List Nat → List Nat
  | [] => []
  | [b1] => [b64Char (b1 / 4), b64Char (b1 % 4 * 16), 61, 61]
  | [b1, b2] => [b64Char (b1 / 4), b64Char (b1 % 4 * 16 + b2 / 16), b64Char (b2 % 16 * 4), 61]
  | b1 :: b2 :: b3 :: rest =>
    b64Char (b1 / 4) :: b64Char (b1 % 4 * 16 + b2 / 16) ::
      b64Char (b2 % 16 * 4 + b3 / 64) :: b64Char (b3 % 64) :: b64encode rest

/-- Decode a run of base64 digits (no `=` among them); the caller has
already ruled out a length of 1 modulo 4. -/
def b64decodeGroups : List Nat → List Nat
  | c1 :: c2 :: c3 :: c4 :: rest =>
    (b64Inv c1 * 4 + b64Inv c2 / 16) ::
      (b64Inv c2 % 16 * 16 + b64Inv c3 / 4) ::
      (b64Inv c3 % 4 * 64 + b64Inv c4) :: b64decodeGroups rest
  | [c1, c2] => [b64Inv c1 * 4 + b64Inv c2 / 16]
  | [c1, c2, c3] =>
    [b64Inv c1 * 4 + b64Inv c2 / 16, b64Inv c2 % 16 * 16 + b64Inv c3 / 4]
  | _ => []

/-- Error kinds a `decode_mutf7` run can produce.  `.format` is
`InvalidUTF7FormatException`; `.b64` is `binascii.Error`; `.utf16` is
`UnicodeDecodeError`; `.fuel` is the (unreachable) fuel guard of the
substitution loop. -/
inductive DecodeErr where
  | format
  | b64
  | utf16
  | fuel
deriving DecidableEq, Repr

/-- `base64.b64decode` in its default lenient mode: characters outside
the alphabet and `=` are discarded, the remaining length must be a
multiple of 4, and the data-digit count must not be 1 more than a
multiple of 4. -/
def b64decodePy (l : List Nat) : Except DecodeErr (List Nat) :=
  let kept := l.filter (fun c => isB64Std c || c == 61)
  if kept.length % 4 != 0 then .error .b64
  else
    let data := kept.takeWhile (fun c => c != 61)
    if data.length % 4 == 1 then .error .b64
    else .ok (b64decodeGroups data)

/-! ### mutf7.py : encoding

`encode_mutf7` mixes Python 3 dynamic types: its accumulator `result`
starts as the `str` `""`, while `__get_ascii` ends in
`text[:pos].encode("ascii")` and therefore returns a `bytes` object.
The embedding keeps the `str`/`bytes` distinction explicit, so the
`TypeError` that `result += __get_ascii(text)` raises in Python 3 is
part of the model. -/

/-- `text.replace("&", "&-")` of `encode_mutf7` (`&` is 38, `-` is 45). -/
def replaceAmp (l : List Nat) : List Nat :=
  l.foldr (fun c acc => (if c == 38 then [38, 45] else [c]) ++ acc) []

/-- Exceptions the encoder can raise: `TypeError` from mixing `str` and
`bytes`, `UnicodeEncodeError` from `encode("utf-16be")` on a surrogate,
and the unreachable fuel guard of the loop. -/
inductive EncErr where
  | typeError
  | unicodeEncode
  | fuel
deriving DecidableEq, Repr

/-- A Python 3 value that is either a `str` or a `bytes` object. -/
inductive StrOrBytes where
  | str : List Nat → StrOrBytes
  | bytes : List Nat → StrOrBytes
deriving DecidableEq, Repr

/-- Python 3 `+` on `str`/`bytes` values: concatenation within one
type, `TypeError` across types. -/
def pyAdd : StrOrBytes → StrOrBytes → Except EncErr StrOrBytes
  | .str a, .str b => .ok (.str (a ++ b))
  | .bytes a, .bytes b => .ok (.bytes (a ++ b))
  | _, _ => .error .typeError

/-- `__get_ascii`: the printable-ASCII prefix of `text`, returned as a
`bytes` object by `text[:pos].encode("ascii")` (that prefix is
printable ASCII, so the `encode("ascii")` call itself succeeds). -/
def getAscii (text : List Nat) : StrOrBytes :=
  .bytes (text.takeWhile isAsciiCode)

/-- `__remove_ascii`: drop the printable-ASCII prefix. -/
def removeAscii (text : List Nat) : List Nat :=
  text.dropWhile isAsciiCode

/-- `__get_nonascii`: the non-printable-ASCII prefix (kept as `str`). -/
def getNonascii (text : List Nat) : List Nat :=
  text.takeWhile (fun c => !isAsciiCode c)

/-- `__remove_nonascii`: drop the non-printable-ASCII prefix. -/
def removeNonascii (text : List Nat) : List Nat :=
  text.dropWhile (fun c => !isAsciiCode c)

/-- `value.rstrip(chars)` with a `str` argument `chars`: strips on a
`str` receiver; on a `bytes` receiver Python 3 raises `TypeError`
(`bytes` methods do not accept `str` arguments). -/
def pyRstrip : StrOrBytes → List Nat → Except EncErr StrOrBytes
  | .str s, chars => .ok (.str ((s.reverse.dropWhile (fun c => chars.contains c)).reverse))
  | .bytes _, _ => .error .typeError

/-- `__encode_modified_utf7`: `base64.b64encode(text.encode("utf-16be"))`
is a `bytes` object, and `.rstrip("=")` passes a `str` argument to a
`bytes` method, which raises `TypeError` in Python 3; the later
`.replace("/", ",")` and `"&" + result + "-"` would raise likewise, so
the function can never return normally. -/
def encodeModifiedUtf7 (run : List Nat) : Except EncErr StrOrBytes := do
  let bytes ← match utf16beEncode run with
    | some bs => Except.ok bs
    | none => Except.error EncErr.unicodeEncode
  pyRstrip (.bytes (b64encode bytes)) [61]

/-- The `while len(text) > 0` loop of `encode_mutf7`.  Each entered
iteration begins with `result += __get_ascii(text)`, a `str` + `bytes`
concatenation, so the body always raises before reaching its recursive
continuation; the fuel guard is unreachable. -/
def encodeLoop : Nat → StrOrBytes → List Nat → Except EncErr StrOrBytes
  | 0, _, _ => .error .fuel
  | fuel + 1, result, text =>
    if text.isEmpty then .ok result
    else do
      let r1 ← pyAdd result (getAscii text)
      let t1 := removeAscii text
      if t1.isEmpty then encodeLoop fuel r1 t1
      else do
        let sec ← encodeModifiedUtf7 (getNonascii t1)
        let r2 ← pyAdd r1 sec
        encodeLoop fuel r2 (removeNonascii t1)

/-- `encode_mutf7` of mutf7.py: `result = ""` then the loop above. -/
def encode_mutf7 (text : List Nat) : Except EncErr StrOrBytes :=
  encodeLoop ((replaceAmp text).length + 1) (.str []) (replaceAmp text)

/-! ### mutf7.py : format check (`__check_utf7_format`)

The four `re.match` patterns are modelled as boolean scanners with
Python's default regex semantics: `.` matches every character except a
newline (10), `$` matches at the end of the string or just before a
newline that ends the string, and a negated character class such as
`[^-]` does match a newline.  Each scanner below walks the candidate
positions of the pattern's `^.*` prefix — which can only advance over
non-newline characters — and tests the rest of the pattern there. -/

/-- `.*$` against an entire remaining suffix: every character up to the
`$` anchor must be a non-newline, and `$` anchors at the end of the
string or just before a final newline. -/
def dotsEnd (s : List Nat) : Bool :=
  match s.dropWhile (fun c => c != 10) with
  | [] => true
  | [_] => true
  | _ => false

/-- First regex `^.*[^\040-\176].*$`: a character outside printable
ASCII whose left context is newline-free and whose right context is
newline-free up to the `$` anchor. -/
def rxBadChar : List Nat → Bool
  | [] => false
  | c :: t => ((c < 0x20 || 0x7E < c) && dotsEnd t) || (c != 10 && rxBadChar t)

/-- `[^-]*(&.*$|$)` against an entire remaining suffix: skip characters
other than `-` (a negated class, so newlines may be skipped) until
either an `&` followed by `.*$`, or the `$` anchor. -/
def amp2Tail : List Nat → Bool
  | [] => true
  | c :: t => (c == 38 && dotsEnd t) || (c == 10 && t.isEmpty) || (c != 45 && amp2Tail t)

/-- Second regex `^.*&[^-]*(&.*$|$)`: some `&` with a newline-free left
context whose tail matches `amp2Tail`. -/
def rxUnclosed : List Nat → Bool
  | [] => false
  | c :: t => (c == 38 && amp2Tail t) || (c != 10 && rxUnclosed t)

/-- `[A-Za-z0-9+,]*[^\-A-Za-z0-9+,].*$` against an entire remaining
suffix: skip modified-base64 digits until a character that is neither a
digit nor `-`, then `.*$`. -/
def amp3Tail : List Nat → Bool
  | [] => false
  | c :: t => (!isB64Mod c && c != 45 && dotsEnd t) || (isB64Mod c && amp3Tail t)

/-- Third regex `^.*&[A-Za-z0-9+,]*[^\-A-Za-z0-9+,].*$`: some `&` with
a newline-free left context whose tail matches `amp3Tail`. -/
def rxBadB64 : List Nat → Bool
  | [] => false
  | c :: t => (c == 38 && amp3Tail t) || (c != 10 && rxBadB64 t)

/-- `-.*$` against an entire remaining suffix: a `-` followed by `.*$`. -/
def endsDash (s : List Nat) : Bool :=
  match s with
  | 45 :: rest => dotsEnd rest
  | _ => false

/-- `[^-&]+-&[^-&]+-` against an entire remaining suffix, with the test
after the second `-` passed in as `final`: the two bracketed runs are
delimited by the very characters their classes exclude, so they are the
maximal `takeWhile` runs. -/
def pairScan (final : List Nat → Bool) (t : List Nat) : Bool :=
  let b1 := t.takeWhile (fun c => c != 45 && c != 38)
  if b1.isEmpty then false
  else
    match t.drop b1.length with
    | 45 :: 38 :: u =>
      let b2 := u.takeWhile (fun c => c != 45 && c != 38)
      if b2.isEmpty then false else final (u.drop b2.length)
    | _ => false

/-- `[^-&]+-&[^-&]+-.*$` against an entire remaining suffix (the tail
of the fourth regex at one `&`). -/
def nullShiftTail : List Nat → Bool :=
  pairScan endsDash

/-- Fourth regex `^.*&[^-&]+-&[^-&]+-.*$`: two back-to-back non-empty
shift sections after some `&` with a newline-free left context. -/
def rxNullShift : List Nat → Bool
  | [] => false
  | c :: t => (c == 38 && nullShiftTail t) || (c != 10 && rxNullShift t)

/-- `__check_utf7_format`: raise `InvalidUTF7FormatException` on the
first matching regex. -/
def checkUtf7Format (l : List Nat) : Except DecodeErr Unit :=
  if rxBadChar l then .error .format
  else if rxUnclosed l then .error .format
  else if rxBadB64 l then .error .format
  else if rxNullShift l then .error .format
  else .ok ()

/-! ### mutf7.py : decoding -/

/-- The `while len(text_b64) % 4 != 0: text_b64 += "="` padding loop of
`__decode_modified_utf7`, unrolled: it appends at most three `=` (61). -/
def padB64 (l : List Nat) : List Nat :=
  if l.length % 4 == 0 then l
  else if (l.length + 1) % 4 == 0 then l ++ [61]
  else if (l.length + 2) % 4 == 0 then l ++ [61, 61]
  else l ++ [61, 61, 61]

/-- `bytes.decode("utf-16be")`. -/
def utf16beDecode (bytes : List Nat) : Except DecodeErr (List Nat) :=
  match toUnits bytes with
  | none => .error .utf16
  | some us =>
    match utf16beDecodeUnits us with
    | none => .error .utf16
    | some cs => .ok cs

/-- `__decode_modified_utf7`: the `&-` special case, otherwise strip the
`&`/`-` frame, map `,` (44) back to `/` (47), restore the base64 padding
and decode as UTF-16BE. -/
def decodeModifiedUtf7 (sec : List Nat) : Except DecodeErr (List Nat) :=
  if sec == [38, 45] then .ok [38]
  else
    match b64decodePy (padB64 (((sec.drop 1).dropLast).map
        (fun c => if c == 44 then 47 else c))) with
    | .error e => .error e
    | .ok bytes => utf16beDecode bytes

/-- Body of a shift section: the characters matched by `[^&-]*`. -/
def sectionBody (t : List Nat) : List Nat :=
  t.takeWhile (fun c => c != 38 && c != 45)

/-- Leftmost match of `re.compile("&[^&-]*-")`, returned as
(text before, matched section, text after). -/
def findSection : List Nat → Option (List Nat × List Nat × List Nat)
  | [] => none
  | c :: t =>
    if c == 38 then
      match t.drop (sectionBody t).length with
      | 45 :: suf => some ([], 38 :: sectionBody t ++ [45], suf)
      | _ =>
        match findSection t with
        | some (p, m, s) => some (c :: p, m, s)
        | none => none
    else
      match findSection t with
      | some (p, m, s) => some (c :: p, m, s)
      | none => none

/-- The `while match:` substitution loop of `decode_mutf7`: decode the
leftmost section and splice the decoded text in place
(`rxp.sub(decoded_text, text, count=1)`).  Each decoded section is
strictly shorter than its match, so the Python loop always terminates;
fuel bounds the iteration count in the model. -/
def decodeLoop : Nat → List Nat → Except DecodeErr (List Nat)
  | 0, _ => .error .fuel
  | fuel + 1, text =>
    match findSection text with
    | none => .ok text
    | some (p, m, s) =>
      match decodeModifiedUtf7 m with
      | .error e => .error e
      | .ok d => decodeLoop fuel (p ++ d ++ s)

/-- `decode_mutf7` of mutf7.py. -/
def decode_mutf7 (text : List Nat) : Except DecodeErr (List Nat) :=
  match checkUtf7Format text with
  | .error e => .error e
  | .ok _ => decodeLoop (text.length + 1) text

/-- Code points of a Lean string literal, for concrete test inputs. -/
def cp (s : String) : List Nat :=
  s.data.map Char.toNat

deriving instance DecidableEq for Except

/-! ### imap_folder.py -/

/-- Python string comparison `<`: lexicographic by code point, a proper
prefix being smaller. -/
def lexLt : List Nat → List Nat → Bool
  | [], [] => false
  | [], _ :: _ => true
  | _ :: _, [] => false
  | a :: xs, b :: ys => if a < b then true else if b < a then false else lexLt xs ys

/-- The fields of `ImapFolder` relevant to ordering: the decoded display
name `_name` and the message count `_count` (−1 meaning unknown). -/
structure PyFolder where
  name : List Nat
  count : Int
deriving DecidableEq, Repr

/-- `ImapFolder.__lt__` of imap_folder.py: when `self.count != -1`,
`return self.count >= other.count`; otherwise `self._name < other._name`. -/
def folderLt (a b : PyFolder) : Bool :=
  if a.count != -1 then decide (a.count ≥ b.count) else lexLt a.name b.name

/-! ### download_context.py : module constants -/

/-- `DEFAULT_TIMEOUT = 10` of download_context.py. -/
def DEFAULT_TIMEOUT : Nat := 10

/-- `DEFAULT_THRESHOLD = 2000` of download_context.py. -/
def DEFAULT_THRESHOLD : Nat := 2000

/-! ### imap_download.py : search expression (`_build_search_string`) -/

/-- `ImapDownload._build_search_string` of imap_download.py. -/
def buildSearchString (yearSince yearBefore : Option Int) : String :=
  match yearSince with
  | none =>
    match yearBefore with
    | none => "ALL"
    | some y => "(SENTBEFORE \"31-Dec-" ++ toString y ++ "\")"
  | some y1 =>
    match yearBefore with
    | none => "(SENTSINCE \"01-Jan-" ++ toString y1 ++ "\")"
    | some y2 =>
      "(SENTSINCE \"01-Jan-" ++ toString y1 ++ "\" SENTBEFORE \"31-Dec-" ++ toString y2 ++ "\")"

/-! ### imap_download.py : the `get_mails_mbox` retrieval loop

The IMAP server is abstracted as an oracle `fetch num attempt` giving
the outcome of the `attempt`-th `FETCH` issued for message number `num`
(0 the first try, 1 the retry after a reconnect, 2 the retry following
both an abort and a NO).  `.abortedConn` models the fetch raising
`imaplib.IMAP4.abort`, `.timedOut` models it raising `TimeoutError`;
`.bad` is any response string other than `"OK"`/`"NO"`.  Logging,
progress callbacks and the wait delays do not influence the result and
are not modelled; the proactive reconnects are recorded in the trace. -/

inductive FetchRv where
  | ok
  | no
  | bad
  | abortedConn
  | timedOut
deriving DecidableEq, Repr

/-- Per-message record: plan position (1-based), message number, the
`count_msgs` value before the fetch, and whether the proactive
reconnect at the top of `_fetch_mail` fired. -/
structure StepInfo where
  pos : Nat
  num : Nat
  dlBefore : Nat
  pre : Bool
deriving DecidableEq, Repr

/-- Observable state of one `get_mails_mbox` run: `downloaded` is
`count_msgs`, `skips` the result's skip list, `mboxMsgs` the numbers
appended to the mbox, `pos` the 1-based plan position of the next
message, `trace` the per-message records. -/
structure LoopSt where
  downloaded : Nat
  skips : List Nat
  mboxMsgs : List Nat
  pos : Nat
  trace : List StepInfo
deriving DecidableEq, Repr

/-- State at the start of a run. -/
def initSt : LoopSt := ⟨0, [], [], 1, []⟩

/-- How a run ends early: `.aborted` for an exception reaching the outer
handlers, `.badResponse` for the `if rv != "OK"` early return. -/
inductive RunExit where
  | aborted
  | badResponse
deriving DecidableEq, Repr

/-- `ImapDownload._fetch_mail`: fetch once; on `imaplib.IMAP4.abort`
reconnect and retry (a second exception propagates); if the resulting
response is `NO`, reconnect with the long cooldown and retry once more,
returning whatever that retry yields.  `.error` means an exception
escapes to `get_mails_mbox`. -/
def fetchMailModel (fetch : Nat → Nat → FetchRv) (num : Nat) : Except Unit FetchRv :=
  match fetch num 0 with
  | .abortedConn =>
    match fetch num 1 with
    | .abortedConn => .error ()
    | .timedOut => .error ()
    | .no =>
      match fetch num 2 with
      | .abortedConn => .error ()
      | .timedOut => .error ()
      | r3 => .ok r3
    | r2 => .ok r2
  | .timedOut => .error ()
  | .no =>
    match fetch num 1 with
    | .abortedConn => .error ()
    | .timedOut => .error ()
    | r2 => .ok r2
  | r1 => .ok r1

/-- The `for num in numbers` loop of `get_mails_mbox`.  The proactive
reconnect `_reconnect(count_msgs + 1, folder)` fires exactly when
`(count_msgs + 1) % threshold == 0`; it is recorded in the trace entry.
A twice-`NO` message is appended to the skip list and the loop
continues; any other non-OK response ends the run via `_set_error`; an
escaped exception ends the run via the outer handlers. -/
def runLoop (thr : Nat) (fetch : Nat → Nat → FetchRv) :
    List Nat → LoopSt → LoopSt × Option RunExit
  | [], st => (st, none)
  | num :: rest, st =>
    let pre := (st.downloaded + 1) % thr == 0
    let st1 : LoopSt := { st with trace := st.trace ++ [⟨st.pos, num, st.downloaded, pre⟩] }
    match fetchMailModel fetch num with
    | .error _ => (st1, some .aborted)
    | .ok rv =>
      match rv with
      | .no =>
        runLoop thr fetch rest { st1 with skips := st1.skips ++ [num], pos := st1.pos + 1 }
      | .ok =>
        runLoop thr fetch rest
          { st1 with
            downloaded := st1.downloaded + 1
            mboxMsgs := st1.mboxMsgs ++ [num]
            pos := st1.pos + 1 }
      | _ => (st1, some .badResponse)

/-- Plan positions at which the proactive reconnect fired. -/
def preconnectPositions (st : LoopSt) : List Nat :=
  (st.trace.filter (fun e => e.pre)).map (fun e => e.pos)

/-! ### imap_download.py : folder listing (`_parse_folder`, `_test_flags`,
`list_folders`)

`_parse_folder` applies `re.search` with `\((.+)\) ([^ ]+) (.*)`:
leftmost starting position first, then the longest group 1 (backtracking
greedy `.+`), whose characters cannot include a newline (10); group 2 is
a non-empty run without spaces followed by a space; group 3 runs to the
end of the line.  `groupsAt` checks one (start, group-1-end) pair; the
maximal viable end is taken at the leftmost viable start. -/

/-- Match `([^ ]+) (.*)` against `t`: the maximal space-free prefix must
be non-empty and be followed by a space. -/
def tailMatch (t : List Nat) : Option (List Nat × List Nat) :=
  let g2 := t.takeWhile (fun c => c != 32)
  if g2.isEmpty then none
  else
    match t.drop g2.length with
    | [] => none
    | _ :: rest => some (g2, rest.takeWhile (fun c => c != 10))

/-- Groups of a match starting at `s` whose group 1 ends just before
position `i`: requires `) ` at `i`, a non-empty newline-free group 1,
and a viable `([^ ]+) (.*)` tail. -/
def groupsAt (l : List Nat) (s i : Nat) : Option (List Nat × List Nat × List Nat) :=
  if s + 2 ≤ i && (l.drop i).take 2 == [41, 32]
      && ((l.drop (s + 1)).take (i - (s + 1))).all (fun c => c != 10) then
    match tailMatch (l.drop (i + 2)) with
    | some (g2, g3) => some ((l.drop (s + 1)).take (i - (s + 1)), g2, g3)
    | none => none
  else none

/-- Try a match starting at position `s` (which must hold `(` = 40),
taking the greediest group 1. -/
def matchAt (l : List Nat) (s : Nat) : Option (List Nat × List Nat × List Nat) :=
  if (l.drop s).head? == some 40 then
    (List.range l.length).reverse.findSome? (fun i => groupsAt l s i)
  else none

/-- `ImapDownload._parse_folder`: the parsed (flags, delimiter, name),
with `"` (34) removed from delimiter and name; `("", "/", "")` when the
pattern does not match. -/
def parseFolder (l : List Nat) : List Nat × List Nat × List Nat :=
  match (List.range l.length).findSome? (fun s => matchAt l s) with
  | some (g1, g2, g3) => (g1, g2.filter (fun c => c != 34), g3.filter (fun c => c != 34))
  | none => ([], [47], [])

/-- Substring test (Python `in` on strings). -/
def containsSub (pat l : List Nat) : Bool :=
  l.tails.any (fun t => pat.isPrefixOf t)

/-- The `ignore_flags` list of `ImapDownload._test_flags`. -/
def ignoreFlagsList : List (List Nat) :=
  [cp "All", cp "Archive", cp "Drafts", cp "Flagged", cp "Junk", cp "Sent", cp "Trash"]

/-- `ImapDownload._test_flags`: true when the flags string contains any
of `\All \Archive \Drafts \Flagged \Junk \Sent \Trash` (92 is `\`). -/
def testFlags (flags : List Nat) : Bool :=
  ignoreFlagsList.any (fun ig => containsSub (92 :: ig) flags)

/-- The fields of `ImapFolder` built by `list_folders`: wire name,
decoded display name, count (−1 until probed). -/
structure ImapFolderRec where
  nameMutf7 : List Nat
  name : List Nat
  count : Int
deriving DecidableEq, Repr

/-- `ImapDownload.get_folder_count`, with the read-only `SELECT`
abstracted as an oracle from wire names to counts; `none` models a
non-OK response, which the method turns into a count of 0 without
updating the folder. -/
def getFolderCountModel (cnt : List Nat → Option Nat) (f : ImapFolderRec) :
    Nat × ImapFolderRec :=
  match cnt f.nameMutf7 with
  | none => (0, f)
  | some n => (n, { f with count := Int.ofNat n })

/-- The `for line in data` loop of `ImapDownload.list_folders`:
special-use folders are skipped, `ImapFolder(name)` decodes the wire
name (an `InvalidUTF7FormatException` propagates, ending the loop with
the folders accumulated so far — second component `false`), and with
counts requested empty folders are skipped.  Progress callbacks and the
message-count tally are not modelled. -/
def listFoldersGo (withCounts : Bool) (cnt : List Nat → Option Nat) :
    List (List Nat) → List ImapFolderRec → List ImapFolderRec × Bool
  | [], acc => (acc, true)
  | line :: rest, acc =>
    let flags := (parseFolder line).1
    let name := (parseFolder line).2.2
    if testFlags flags then listFoldersGo withCounts cnt rest acc
    else
      match decode_mutf7 name with
      | .error _ => (acc, false)
      | .ok disp =>
        let folder : ImapFolderRec := ⟨name, disp, -1⟩
        if withCounts then
          let probed := getFolderCountModel cnt folder
          if probed.1 == 0 then listFoldersGo withCounts cnt rest acc
          else listFoldersGo withCounts cnt rest (acc ++ [probed.2])
        else listFoldersGo withCounts cnt rest (acc ++ [folder])

/-- `ImapDownload.list_folders` starting from an empty folder list. -/
def list_folders (withCounts : Bool) (cnt : List Nat → Option Nat)
    (lines : List (List Nat)) : List ImapFolderRec × Bool :=
  listFoldersGo withCounts cnt lines []

/-! ### mbox_delivery.py : `MboxDelivery.transform`

Local I/O is abstracted as an oracle naming which of the ten fallible
operations (in execution order) raises `OSError`, if any:
0 `getsize(src_mbox)`, 1 opening the destination `ZipFile`,
2 `writestr bagit.txt`, 3 streaming the data entry,
4 `writestr manifest-md5.txt`, 5 streaming the metadata entry,
6 `writestr tagmanifest-md5.txt`, 7 `getsize` for the oxum,
8 `writestr bagit-info.txt`, 9 closing the archive.  Per-chunk progress
reports are not modelled; the `start`/`complete`/`error` phases are. -/

/-- `os.path.basename` (POSIX separators). -/
def pyBasename (s : String) : String :=
  (s.splitOn "/").getLastD ""

/-- Result of a `transform` run: the returned count, the archive entries
completely written (in order), and the progress phases reported. -/
structure TransformOut where
  count : Nat
  entries : List String
  events : List String
deriving DecidableEq, Repr

/-- Whether the oracle makes fallible operation `k` raise. -/
def failsAt (f : Option (Fin 10)) (k : Nat) : Bool :=
  match f with
  | some j => j.val == k
  | none => false

/-- `MboxDelivery.transform`: writes the six entries in fixed order,
incrementing `count` after each; `except OSError` reports an `error`
phase and the accumulated `count` is returned either way. -/
def transform (f : Option (Fin 10)) (srcMbox srcJson : String) : TransformOut :=
  if failsAt f 0 then ⟨0, [], ["error"]⟩
  else
    let ev0 := ["start"]
    if failsAt f 1 then ⟨0, [], ev0 ++ ["error"]⟩
    else if failsAt f 2 then ⟨0, [], ev0 ++ ["error"]⟩
    else
      let e1 := ["bagit.txt"]
      if failsAt f 3 then ⟨1, e1, ev0 ++ ["error"]⟩
      else
        let e2 := e1 ++ ["data/" ++ pyBasename srcMbox]
        if failsAt f 4 then ⟨2, e2, ev0 ++ ["error"]⟩
        else
          let e3 := e2 ++ ["manifest-md5.txt"]
          if failsAt f 5 then ⟨3, e3, ev0 ++ ["error"]⟩
          else
            let e4 := e3 ++ ["metadata/" ++ pyBasename srcJson]
            if failsAt f 6 then ⟨4, e4, ev0 ++ ["error"]⟩
            else
              let e5 := e4 ++ ["tagmanifest-md5.txt"]
              if failsAt f 7 then ⟨5, e5, ev0 ++ ["error"]⟩
              else if failsAt f 8 then ⟨5, e5, ev0 ++ ["error"]⟩
              else
                let e6 := e5 ++ ["bagit-info.txt"]
                if failsAt f 9 then ⟨6, e6, ev0 ++ ["error"]⟩
                else ⟨6, e6, ev0 ++ ["complete"]⟩

/-! ### download_context.py / download_result.py : manifest dictionaries

Python dictionaries are modelled as ordered key-value lists over a
small value type.  `calculate_duration` and the `datetime.now()` stamps
are passed in as opaque strings (their values play no role in the
properties proved here; datetime arithmetic is not modelled). -/

inductive PyVal where
  | s (v : String)
  | i (v : Int)
  | ints (vs : List Int)
  | strs (vs : List String)
  | dict (kvs : List (String × PyVal))

/-- Key membership (`k in dct`). -/
def dHas (kvs : List (String × PyVal)) (k : String) : Bool :=
  kvs.any (fun p => p.1 == k)

/-- Exceptions relevant to the manifest code paths. -/
inductive PyErr where
  | attributeError
  | typeError
deriving DecidableEq, Repr

/-- Outcome of a `from_dict` class method: an exception, the dictionary
returned unchanged (keys missing), or a constructed instance. -/
inductive PyResult (α : Type) where
  | raised (e : PyErr)
  | unchanged
  | value (v : α)

/-- `ImapServer` fields. -/
structure ImapServerRec where
  name : String
  host : String
  port : Int
deriving DecidableEq, Repr

/-- `ImapAccount` fields. -/
structure ImapAccountRec where
  name : String
  password : String
deriving DecidableEq, Repr

/-- `ImapFolder` as serialized by `ImapFolder.to_dict` (display name and
optional count). -/
structure FolderRec where
  name : String
  count : Int
deriving DecidableEq, Repr

/-- `DownloadContext` fields. -/
structure DownloadContextRec where
  agent : Option String
  server : Option ImapServerRec
  account : Option ImapAccountRec
  folder : Option FolderRec
  yearSince : Option Int
  yearBefore : Option Int
  mbox : Option String
  timeout : Int
  threshold : Int

/-- `DownloadResult` fields. -/
structure DownloadResultRec where
  context : Option DownloadContextRec
  totalMails : Int
  startDatetime : Option String
  endDatetime : Option String
  downloadMails : Int
  skipMails : List Int
  logs : List String

/-- `ImapServer.to_dict`. -/
def serverToDict (s : ImapServerRec) : PyVal :=
  .dict [("name", .s s.name), ("host", .s s.host), ("port", .i s.port)]

/-- `ImapAccount.to_dict` (the password is never serialized). -/
def accountToDict (a : ImapAccountRec) : PyVal :=
  .dict [("name", .s a.name)]

/-- `ImapFolder.to_dict`. -/
def folderToDict (f : FolderRec) : PyVal :=
  if f.count != -1 then .dict [("name", .s f.name), ("count", .i f.count)]
  else .dict [("name", .s f.name)]

/-- `DownloadContext.to_dict`.  `os.path.basename` is applied to the
mbox path; calling it on `None` would raise `TypeError`, modelled by
`none`. -/
def contextToDict (c : DownloadContextRec) : Option (List (String × PyVal)) :=
  match c.mbox with
  | none => none
  | some m =>
    let base : List (String × PyVal) := [("agent", .s (c.agent.getD ""))]
    let base := base ++ (match c.server with
      | some s => [("server", serverToDict s)]
      | none => [])
    let base := base ++ (match c.account with
      | some a => [("account", accountToDict a)]
      | none => [])
    let base := base ++ (match c.folder with
      | some f => [("folder", folderToDict f)]
      | none => [])
    let base := base ++ (if c.yearSince.isSome || c.yearBefore.isSome then
      [("scope", .dict ((match c.yearSince with
          | some y => [("year_begin", PyVal.i y)]
          | none => []) ++ (match c.yearBefore with
          | some y => [("year_end", PyVal.i y)]
          | none => [])))]
      else [])
    some (base ++ [("mbox", .s (pyBasename m)), ("timeout", .i c.timeout),
      ("threshold", .i c.threshold)])

/-- `DownloadResult.to_dict`.  `now` stands for the
`datetime.datetime.now()` stamp and `duration` for
`calculate_duration()`. -/
def resultToDict (now duration : String) (r : DownloadResultRec) :
    Option (List (String × PyVal)) :=
  let ctx : Option (List (String × PyVal)) := match r.context with
    | some c =>
      match contextToDict c with
      | some d => some [("context", .dict d)]
      | none => none
    | none => some []
  match ctx with
  | none => none
  | some ctxPart =>
    let timings : List (String × PyVal) := match r.startDatetime with
      | some st =>
        [("timings", .dict [("start", .s st),
          ("end", .s (r.endDatetime.getD "")), ("duration", .s duration)])]
      | none => []
    some ([("date", .s now)] ++ ctxPart ++ timings ++
      [("statistics", .dict [("total", .i r.totalMails),
        ("downloaded", .i r.downloadMails), ("skipped", .ints r.skipMails)]),
       ("logs", .strs r.logs)])

/-- Value lookup (`dct[k]` / `dct.get(k)`). -/
def dGet (kvs : List (String × PyVal)) (k : String) : Option PyVal :=
  (kvs.find? (fun p => p.1 == k)).map (fun p => p.2)

/-- `ImapServer.from_dict`: builds a server when `name` and `host` are
present, with `int(dct["port"])` defaulting to 993; `none` models the
fallthrough that returns the dictionary unchanged. -/
def serverFromDict (kvs : List (String × PyVal)) : Option ImapServerRec :=
  match dGet kvs "name", dGet kvs "host" with
  | some (.s n), some (.s h) =>
    match dGet kvs "port" with
    | some (.i p) => some ⟨n, h, p⟩
    | _ => some ⟨n, h, 993⟩
  | _, _ => none

/-- `DownloadContext.from_dict`.  After the `"mbox" in dct` guard it
evaluates `ImapServer.from_dict(dct["server"]) if "server" in dct else
None`, then the analogous conditionals for `ImapAccount` and
`ImapFolder` — but neither `ImapAccount.from_dict` nor
`ImapFolder.from_dict` is defined anywhere in the repository, so the
attribute lookup raises `AttributeError` as soon as the corresponding
key is present.  With both keys absent the remaining fields are read as
in the source, `timeout`/`threshold` defaulting to the module
constants. -/
def contextFromDict (dct : List (String × PyVal)) : PyResult DownloadContextRec :=
  if !dHas dct "mbox" then .unchanged
  else if dHas dct "account" then .raised .attributeError
  else if dHas dct "folder" then .raised .attributeError
  else
    let agent := match dGet dct "agent" with
      | some (.s v) => v
      | _ => ""
    let server := match dGet dct "server" with
      | some (.dict sd) => serverFromDict sd
      | _ => none
    let scope := match dGet dct "scope" with
      | some (.dict sc) => sc
      | _ => []
    let ys := match dGet scope "year_begin" with
      | some (.i y) => some y
      | _ => none
    let yb := match dGet scope "year_end" with
      | some (.i y) => some y
      | _ => none
    let mbox := match dGet dct "mbox" with
      | some (.s v) => some v
      | _ => none
    let timeout := match dGet dct "timeout" with
      | some (.i v) => v
      | _ => (DEFAULT_TIMEOUT : Int)
    let threshold := match dGet dct "threshold" with
      | some (.i v) => v
      | _ => (DEFAULT_THRESHOLD : Int)
    .value ⟨some agent, server, none, none, ys, yb, mbox, timeout, threshold⟩

/-- `DownloadResult.from_dict`: on a dictionary with a `"context"` key it
builds a result, first deserializing the context — an exception there
propagates.  (The degenerate case of a context parse falling through to
the raw dictionary is collapsed to a `none` context; it is outside every
property proved here.) -/
def resultFromDict (dct : List (String × PyVal)) : PyResult DownloadResultRec :=
  if !dHas dct "context" then .unchanged
  else
    match dGet dct "context" with
    | some (.dict ctxD) =>
      match contextFromDict ctxD with
      | .raised e => .raised e
      | other =>
        let ctx := match other with
          | .value c => some c
          | _ => none
        let logs := match dGet dct "logs" with
          | some (.strs vs) => vs
          | _ => []
        let stats := match dGet dct "statistics" with
          | some (.dict st) => st
          | _ => []
        let total := match dGet stats "total" with
          | some (.i v) => v
          | _ => 0
        let downloaded := match dGet stats "downloaded" with
          | some (.i v) => v
          | _ => 0
        let skipped := match dGet stats "skipped" with
          | some (.ints vs) => vs
          | _ => []
        let timings := match dGet dct "timings" with
          | some (.dict tm) => tm
          | _ => []
        let startD := match dGet timings "start" with
          | some (.s v) => some v
          | _ => none
        let endD := match dGet timings "end" with
          | some (.s v) => some v
          | _ => none
        .value ⟨ctx, total, startD, endD, downloaded, skipped, logs⟩
    | _ => .raised .typeError

/-! ## Generic list lemmas -/

theorem mem_of_mem_takeWhile {p : Nat → Bool} {x : Nat} {l : List Nat}
    (h : x ∈ l.takeWhile p) : x ∈ l :=
  (List.takeWhile_prefix p).subset h

theorem mem_of_mem_dropWhile {p : Nat → Bool} {x : Nat} {l : List Nat}
    (h : x ∈ l.dropWhile p) : x ∈ l :=
  (List.dropWhile_suffix p).subset h

theorem dropWhile_eq_nil_of_all {p : Nat → Bool} : ∀ {l : List Nat},
    (∀ x ∈ l, p x = true) → l.dropWhile p = [] := by
  intro l
  induction l with
  | nil => intro _; rfl
  | cons a t ih =>
    intro h
    rw [List.dropWhile_cons_of_pos (h a (by simp))]
    exact ih (fun x hx => h x (by simp [hx]))

theorem replaceAmp_cons (c : Nat) (t : List Nat) :
    replaceAmp (c :: t) = (if c == 38 then [38, 45] else [c]) ++ replaceAmp t := rfl

/-- `text.replace("&", "&-")` never turns a non-empty string into the
empty string. -/
theorem replaceAmp_ne_nil : ∀ {s : List Nat}, s ≠ [] → replaceAmp s ≠ [] := by
  intro s hs
  cases s with
  | nil => exact absurd rfl hs
  | cons c t =>
    rw [replaceAmp_cons]
    by_cases hc : (c == 38) = true
    · rw [if_pos hc]
      simp
    · rw [if_neg hc]
      simp

/-! ## Theorems -/

/-- C7: the search-expression builder returns exactly `ALL` with no
bounds, a `SENTSINCE "01-Jan-Y"` clause with only a lower bound, a
`SENTBEFORE "31-Dec-Y"` clause with only an upper bound, and the
combined clause with both, for every pair of optional year values. -/
theorem c7_search_expression :
    buildSearchString none none = "ALL" ∧
    (∀ y : Int, buildSearchString (some y) none =
      "(SENTSINCE \"01-Jan-" ++ toString y ++ "\")") ∧
    (∀ y : Int, buildSearchString none (some y) =
      "(SENTBEFORE \"31-Dec-" ++ toString y ++ "\")") ∧
    (∀ y1 y2 : Int, buildSearchString (some y1) (some y2) =
      "(SENTSINCE \"01-Jan-" ++ toString y1 ++ "\" SENTBEFORE \"31-Dec-" ++
        toString y2 ++ "\")") :=
  ⟨rfl, fun _ => rfl, fun _ => rfl, fun _ _ => rfl⟩

/-- C9 counterexample: the folder less-than relation is not a strict
ordering — it is reflexive on any folder with a known count, and it
holds in both directions for two distinct folders of equal count,
violating the irreflexivity and asymmetry of a strict ordering. -/
theorem c9_counterexample :
    folderLt ⟨cp "A", 5⟩ ⟨cp "A", 5⟩ = true ∧
    folderLt ⟨cp "A", 5⟩ ⟨cp "B", 5⟩ = true ∧
    folderLt ⟨cp "B", 5⟩ ⟨cp "A", 5⟩ = true := by decide

/-- C9 amended: the folder less-than relation compares a folder with a
known count (count ≠ −1) to any other folder by non-strict descending
count (`self.count >= other.count`), and a folder with an unknown count
lexicographically by display name; it is reflexive — hence not strict —
on folders with known counts. -/
theorem c9_folder_ordering :
    (∀ a b : PyFolder, a.count ≠ -1 → (folderLt a b = true ↔ b.count ≤ a.count)) ∧
    (∀ a b : PyFolder, a.count = -1 → folderLt a b = lexLt a.name b.name) ∧
    (∀ a : PyFolder, a.count ≠ -1 → folderLt a a = true) := by
  refine ⟨fun a b h => ?_, fun a b h => ?_, fun a h => ?_⟩
  · simp [folderLt, h, ge_iff_le]
  · simp [folderLt, h]
  · simp [folderLt, h]

/-- C9 witness: a folder with count 5 is less-than a folder with count
3 under the descending-count comparison. -/
theorem c9_folder_ordering_witness :
    folderLt ⟨cp "A", 5⟩ ⟨cp "B", 3⟩ = true :=
  (c9_folder_ordering.1 ⟨cp "A", 5⟩ ⟨cp "B", 3⟩ (by decide)).mpr (by decide)

/-- C10: decoding `&-&-` raises no error and yields the literal `&&`;
the null-shift regex only matches shift sections with non-empty base64
content, as on `&AAA-&BBB-`. -/
theorem c10_double_empty_shift :
    decode_mutf7 (cp "&-&-") = .ok (cp "&&") ∧
    rxNullShift (cp "&-&-") = false ∧
    rxNullShift (cp "&AAA-&BBB-") = true := by decide

/-- Numbers in the skip list of a state survive the rest of the run:
the loop only appends to the skip list. -/
theorem skips_mono (thr : Nat) (fetch : Nat → Nat → FetchRv) :
    ∀ (plan : List Nat) (st : LoopSt) (x : Nat),
      x ∈ st.skips → x ∈ (runLoop thr fetch plan st).1.skips := by
  intro plan
  induction plan with
  | nil => intro st x hx; exact hx
  | cons num rest ih =>
    intro st x hx
    simp only [runLoop]
    cases fetchMailModel fetch num with
    | error e => exact hx
    | ok rv =>
      cases rv with
      | no => exact ih _ _ (by simp [hx])
      | ok => exact ih _ _ (by simp [hx])
      | bad => exact hx
      | abortedConn => exact hx
      | timedOut => exact hx

/-- C3: a planned message number whose fetch returns `NO` and whose
single retry (after the long-cooldown reconnect) again returns `NO` is
appended to the result's skip list, and the run continues with the
remaining planned numbers from the updated state instead of aborting. -/
theorem c3_skip_and_continue (thr : Nat) (fetch : Nat → Nat → FetchRv)
    (num : Nat) (rest : List Nat) (st : LoopSt) (_hthr : 0 < thr)
    (h0 : fetch num 0 = .no) (h1 : fetch num 1 = .no) :
    num ∈ (runLoop thr fetch (num :: rest) st).1.skips ∧
    runLoop thr fetch (num :: rest) st =
      runLoop thr fetch rest
        { st with
          trace := st.trace ++ [⟨st.pos, num, st.downloaded, (st.downloaded + 1) % thr == 0⟩]
          skips := st.skips ++ [num]
          pos := st.pos + 1 } := by
  have hstep : runLoop thr fetch (num :: rest) st =
      runLoop thr fetch rest
        { st with
          trace := st.trace ++ [⟨st.pos, num, st.downloaded, (st.downloaded + 1) % thr == 0⟩]
          skips := st.skips ++ [num]
          pos := st.pos + 1 } := by
    simp [runLoop, fetchMailModel, h0, h1]
  exact ⟨hstep ▸ skips_mono thr fetch rest _ num (by simp), hstep⟩

/-- C3 witness: with a server that answers `NO` twice for message 7 and
`OK` otherwise, message 7 lands in the skip list and the run continues
to message 8. -/
theorem c3_skip_and_continue_witness :
    7 ∈ (runLoop 2000 (fun num _ => if num == 7 then .no else .ok) [7, 8] initSt).1.skips :=
  (c3_skip_and_continue 2000 (fun num _ => if num == 7 then .no else .ok)
    7 [8] initSt (by decide) (by decide) (by decide)).1

/-- The concrete fetch oracle of the C4 counterexample: message 1 is
twice unavailable, everything else succeeds. -/
def c4Fetch : Nat → Nat → FetchRv :=
  fun num _ => if num == 1 then .no else .ok

/-- C4 counterexample: with threshold 2 and plan `[1, 2]` where message
1 is skipped (two `NO`s), the message at 1-based position 2 — a multiple
of the threshold — is fetched with no proactive reconnect before it
(its trace entry has `pre = false` because `count_msgs + 1 = 1`), so the
claimed "exactly when the 1-based position is a multiple of the
threshold" fails. -/
theorem c4_counterexample :
    (runLoop 2 c4Fetch [1, 2] initSt).1.trace =
      [⟨1, 1, 0, false⟩, ⟨2, 2, 0, false⟩] ∧
    (runLoop 2 c4Fetch [1, 2] initSt).1.mboxMsgs = [2] ∧
    preconnectPositions (runLoop 2 c4Fetch [1, 2] initSt).1 = [] := by decide

/-- Auxiliary for C4: every trace entry produced by the loop obeys the
reconnect law `pre = ((dlBefore + 1) % thr == 0)`. -/
theorem trace_pre_law (thr : Nat) (fetch : Nat → Nat → FetchRv) :
    ∀ (plan : List Nat) (st : LoopSt),
      (∀ e ∈ st.trace, e.pre = ((e.dlBefore + 1) % thr == 0)) →
      ∀ e ∈ (runLoop thr fetch plan st).1.trace, e.pre = ((e.dlBefore + 1) % thr == 0) := by
  intro plan
  induction plan with
  | nil => intro st hst; exact hst
  | cons num rest ih =>
    intro st hst
    have hst1 : ∀ e ∈ st.trace ++ [(⟨st.pos, num, st.downloaded,
        (st.downloaded + 1) % thr == 0⟩ : StepInfo)],
        e.pre = ((e.dlBefore + 1) % thr == 0) := by
      intro e he
      rcases List.mem_append.mp he with h | h
      · exact hst e h
      · simp at h
        subst h
        rfl
    simp only [runLoop]
    cases fetchMailModel fetch num with
    | error e => exact hst1
    | ok rv =>
      cases rv with
      | no => exact ih _ hst1
      | ok => exact ih _ hst1
      | bad => exact hst1
      | abortedConn => exact hst1
      | timedOut => exact hst1

/-- Auxiliary for C4: when every fetch succeeds, `count_msgs + 1` is
exactly the 1-based plan position at each step. -/
theorem trace_pos_law (thr : Nat) (fetch : Nat → Nat → FetchRv)
    (hok : ∀ n i, fetch n i = .ok) :
    ∀ (plan : List Nat) (st : LoopSt),
      st.downloaded + 1 = st.pos →
      (∀ e ∈ st.trace, e.dlBefore + 1 = e.pos) →
      ∀ e ∈ (runLoop thr fetch plan st).1.trace, e.dlBefore + 1 = e.pos := by
  intro plan
  induction plan with
  | nil => intro st _ hst; exact hst
  | cons num rest ih =>
    intro st hinv hst
    have hfetch : fetchMailModel fetch num = .ok .ok := by
      simp [fetchMailModel, hok]
    simp only [runLoop, hfetch]
    refine ih _ (by simp [hinv]) ?_
    intro e he
    rcases List.mem_append.mp he with h | h
    · exact hst e h
    · simp at h
      subst h
      exact hinv

/-- C4 amended: the proactive reconnect before a fetch fires exactly
when one plus the number of messages downloaded so far is a multiple of
the configured threshold (whose default is 2000); in a run where every
fetch succeeds this equals the 1-based plan position, so a 3-message
run with threshold 2 performs exactly one proactive reconnect, before
the 2nd message.  In runs with skips the two notions differ (see the
counterexample). -/
theorem c4_proactive_reconnect (thr : Nat) (fetch : Nat → Nat → FetchRv)
    (plan : List Nat) (_hthr : 0 < thr) :
    (∀ e ∈ (runLoop thr fetch plan initSt).1.trace,
      e.pre = ((e.dlBefore + 1) % thr == 0)) ∧
    ((∀ n i, fetch n i = .ok) →
      ∀ e ∈ (runLoop thr fetch plan initSt).1.trace, e.dlBefore + 1 = e.pos) ∧
    (∀ (g : Nat → Nat → FetchRv), (∀ n i, g n i = .ok) →
      ∀ n1 n2 n3 : Nat,
        preconnectPositions (runLoop 2 g [n1, n2, n3] initSt).1 = [2]) ∧
    DEFAULT_THRESHOLD = 2000 := by
  refine ⟨trace_pre_law thr fetch plan initSt (by simp [initSt]), ?_, ?_, rfl⟩
  · intro hok
    exact trace_pos_law thr fetch hok plan initSt (by simp [initSt]) (by simp [initSt])
  · intro g hg n1 n2 n3
    have hfetch : ∀ n, fetchMailModel g n = .ok .ok := by
      intro n
      simp [fetchMailModel, hg]
    simp [runLoop, hfetch, preconnectPositions, initSt]

/-- C4 witness: a 3-message all-successful run with threshold 2
reconnects proactively exactly once, before the 2nd message. -/
theorem c4_proactive_reconnect_witness :
    preconnectPositions (runLoop 2 (fun _ _ => FetchRv.ok) [5, 6, 7] initSt).1 = [2] :=
  (c4_proactive_reconnect 2 (fun _ _ => FetchRv.ok) [5, 6, 7] (by decide)).2.2.1
    (fun _ _ => FetchRv.ok) (fun _ _ => rfl) 5 6 7

/-- C8: with no I/O failure, `transform` writes `bagit.txt`, the data
entry, `manifest-md5.txt`, the metadata entry, `tagmanifest-md5.txt`
and `bagit-info.txt` in that order and returns 6 with no error phase;
whichever single operation fails, it reports an `error` phase through
the progress callback and still returns exactly the number of entries
completely written before the failure instead of raising. -/
theorem c8_transform (srcMbox srcJson : String) :
    transform none srcMbox srcJson =
      ⟨6, ["bagit.txt", "data/" ++ pyBasename srcMbox, "manifest-md5.txt",
           "metadata/" ++ pyBasename srcJson, "tagmanifest-md5.txt", "bagit-info.txt"],
        ["start", "complete"]⟩ ∧
    (∀ f : Fin 10,
      (transform (some f) srcMbox srcJson).count =
        (transform (some f) srcMbox srcJson).entries.length ∧
      "error" ∈ (transform (some f) srcMbox srcJson).events) ∧
    "error" ∉ (transform none srcMbox srcJson).events := by
  refine ⟨rfl, ?_, by simp [transform, failsAt]⟩
  intro f
  fin_cases f <;> exact ⟨rfl, by simp [transform, failsAt]⟩

/-- The populated download result of `DownloadResult.make_dummy`:
context (agent, server, account, folder, mbox), timestamps, counts,
skip list and logs all set. -/
def dummyResult : DownloadResultRec :=
  { context := some
      { agent := some "TestAgent 0.1"
        server := some ⟨"Yahoo", "imap.mail.yahoo.com", 993⟩
        account := some ⟨"example@example.org", ""⟩
        folder := some ⟨"test", -1⟩
        yearSince := none
        yearBefore := none
        mbox := some "test.mbox"
        timeout := 10
        threshold := 2000 }
    totalMails := 8000
    startDatetime := some "1900-01-01T12:00:00"
    endDatetime := some "1900-01-02T18:20:00"
    downloadMails := 7998
    skipMails := [234, 235]
    logs := ["1900-01-01 - Test 1", "1900-01-01 - Test 2", "1900-01-01 - Test 3"] }

/-- C2: the manifest round-trip does not succeed on a fully populated
result: `DownloadResult.to_dict` serializes the account (and folder),
and `DownloadContext.from_dict` then evaluates `ImapAccount.from_dict`
(and would evaluate `ImapFolder.from_dict`), neither of which exists in
the repository, raising `AttributeError` instead of reproducing the
result. -/
theorem c2_roundtrip_raises :
    ∃ d, resultToDict "1900-01-03T00:00:00" "30:20:00" dummyResult = some d ∧
      resultFromDict d = .raised .attributeError :=
  ⟨_, rfl, rfl⟩

/-- Auxiliary for C6: every folder produced by the `list_folders` loop
comes from a listing line whose flags pass `_test_flags`, carries that
line's parsed name, and — when counts are probed — a non-zero probed
count. -/
theorem listFoldersGo_mem (withCounts : Bool) (cnt : List Nat → Option Nat) :
    ∀ (lines : List (List Nat)) (acc : List ImapFolderRec) (f : ImapFolderRec),
      f ∈ (listFoldersGo withCounts cnt lines acc).1 →
      f ∈ acc ∨ ∃ line ∈ lines,
        testFlags (parseFolder line).1 = false ∧
        f.nameMutf7 = (parseFolder line).2.2 ∧
        (withCounts = true → ∃ n, cnt f.nameMutf7 = some n ∧ n ≠ 0 ∧ f.count = Int.ofNat n) := by
  intro lines
  induction lines with
  | nil =>
    intro acc f hf
    exact Or.inl hf
  | cons line rest ih =>
    intro acc f hf
    simp only [listFoldersGo] at hf
    by_cases hflag : testFlags (parseFolder line).1
    · rw [if_pos hflag] at hf
      rcases ih acc f hf with h | ⟨l, hl, hp⟩
      · exact Or.inl h
      · exact Or.inr ⟨l, List.mem_cons_of_mem _ hl, hp⟩
    · rw [if_neg hflag] at hf
      rcases hdec : decode_mutf7 (parseFolder line).2.2 with e | disp
      · rw [hdec] at hf
        exact Or.inl hf
      · rw [hdec] at hf
        cases withCounts with
        | true =>
          simp only [eq_self_iff_true, if_true] at hf
          rcases hcnt : cnt (parseFolder line).2.2 with _ | n
          · have hz : ((getFolderCountModel cnt ⟨(parseFolder line).2.2, disp, -1⟩).1 == 0)
                = true := by
              simp [getFolderCountModel, hcnt]
            rw [if_pos hz] at hf
            rcases ih acc f hf with h | ⟨l, hl, hp⟩
            · exact Or.inl h
            · exact Or.inr ⟨l, List.mem_cons_of_mem _ hl, hp⟩
          · by_cases hn : n = 0
            · have hz : ((getFolderCountModel cnt ⟨(parseFolder line).2.2, disp, -1⟩).1 == 0)
                  = true := by
                simp [getFolderCountModel, hcnt, hn]
              rw [if_pos hz] at hf
              rcases ih acc f hf with h | ⟨l, hl, hp⟩
              · exact Or.inl h
              · exact Or.inr ⟨l, List.mem_cons_of_mem _ hl, hp⟩
            · have hz : ((getFolderCountModel cnt ⟨(parseFolder line).2.2, disp, -1⟩).1 == 0)
                  = false := by
                simp [getFolderCountModel, hcnt, hn]
              rw [if_neg (by simp [hz])] at hf
              rcases ih _ f hf with h | ⟨l, hl, hp⟩
              · rcases List.mem_append.mp h with h | h
                · exact Or.inl h
                · have hfp : f = (getFolderCountModel cnt
                      ⟨(parseFolder line).2.2, disp, -1⟩).2 := by simpa using h
                  have hfv : f = ⟨(parseFolder line).2.2, disp, Int.ofNat n⟩ := by
                    rw [hfp]
                    simp [getFolderCountModel, hcnt]
                  refine Or.inr ⟨line, List.mem_cons_self _ _, by simpa using hflag, ?_, ?_⟩
                  · rw [hfv]
                  · intro _
                    exact ⟨n, by rw [hfv]; exact hcnt, hn, by rw [hfv]⟩
              · exact Or.inr ⟨l, List.mem_cons_of_mem _ hl, hp⟩
        | false =>
          simp only [Bool.false_eq_true, if_false] at hf
          rcases ih _ f hf with h | ⟨l, hl, hp⟩
          · rcases List.mem_append.mp h with h | h
            · exact Or.inl h
            · have hfv : f = ⟨(parseFolder line).2.2, disp, -1⟩ := by simpa using h
              refine Or.inr ⟨line, List.mem_cons_self _ _, by simpa using hflag, by rw [hfv], ?_⟩
              intro hcontra
              cases hcontra
          · exact Or.inr ⟨l, List.mem_cons_of_mem _ hl, hp⟩

/-- C6: every folder returned by `list_folders` originates from a
listing line whose flags contain none of `\All`, `\Archive`, `\Drafts`,
`\Flagged`, `\Junk`, `\Sent`, `\Trash` (in particular a `\Trash`-flagged
folder never appears, whatever its count), and when counts are
requested each returned folder carries a probed count that is not
zero. -/
theorem c6_special_use_excluded (withCounts : Bool) (cnt : List Nat → Option Nat)
    (lines : List (List Nat)) (f : ImapFolderRec)
    (hf : f ∈ (list_folders withCounts cnt lines).1) :
    ∃ line ∈ lines,
      testFlags (parseFolder line).1 = false ∧
      (∀ ig ∈ ignoreFlagsList, containsSub (92 :: ig) (parseFolder line).1 = false) ∧
      f.nameMutf7 = (parseFolder line).2.2 ∧
      (withCounts = true → ∃ n, cnt f.nameMutf7 = some n ∧ n ≠ 0 ∧ f.count = Int.ofNat n) := by
  rcases listFoldersGo_mem withCounts cnt lines [] f hf with h | ⟨line, hline, h1, h2, h3⟩
  · simp at h
  · refine ⟨line, hline, h1, ?_, h2, h3⟩
    intro ig hig
    have h1m : ∀ x ∈ ignoreFlagsList, ¬(containsSub (92 :: x) (parseFolder line).1 = true) := by
      simpa [testFlags, List.any_eq_false] using h1
    simpa using h1m ig hig

/-! ### C5 : the defect classes, following the claim's wording -/

/-- Scan for an occurrence of `&` (38) whose following text satisfies
`p`, an occurrence anywhere in the string.  On newline-free text this
is exactly the reach of the `^.*&` prefix of the last three regexes of
`__check_utf7_format`. -/
def anyAmp (p : List Nat → Bool) : List Nat → Bool
  | [] => false
  | c :: t => (c == 38 && p t) || anyAmp p t

/-- Defect (a) of C5: the input contains a character outside the
printable ASCII range 0x20–0x7E. -/
def defectA (l : List Nat) : Bool :=
  l.any (fun c => c < 0x20 || 0x7E < c)

/-- Defect (b) of C5: an unterminated shift-in section — some `&` is
never followed by a `-`. -/
def defectB : List Nat → Bool :=
  anyAmp (fun t => !t.contains 45)

/-- Defect (c) of C5: a character outside the base64 alphabet inside a
shift-in section, i.e. between some `&` and the first `-` after it. -/
def defectC : List Nat → Bool :=
  anyAmp (fun t => t.contains 45 && (t.takeWhile (fun c => c != 45)).any (fun c => !isB64Mod c))

/-- Two non-empty bracketed runs `[^-&]+-&[^-&]+-` after one `&`,
without the trailing `.*$` of the fourth regex (which on newline-free
text always matches): the closing test only asks for the second `-`. -/
def nullPairTail : List Nat → Bool :=
  pairScan (fun s => s.head? == some 45)

/-- Defect (d) of C5: two back-to-back shift-in/shift-out pairs with
non-empty content (the forbidden null shift, e.g. `&AAA-&BBB-`). -/
def defectD : List Nat → Bool :=
  anyAmp nullPairTail

/-! #### On newline-free text the scanners reduce to `anyAmp` forms -/

theorem dotsEnd_of_noNL {s : List Nat} (h : ∀ c ∈ s, c ≠ 10) : dotsEnd s = true := by
  unfold dotsEnd
  rw [dropWhile_eq_nil_of_all (fun x hx => by simp [h x hx])]

theorem amp2Tail_of_noNL : ∀ {t : List Nat}, (∀ c ∈ t, c ≠ 10) →
    amp2Tail t = ((t.takeWhile (fun c => c != 45)).contains 38 || !t.contains 45) := by
  intro t
  induction t with
  | nil => intro _; rfl
  | cons c t2 ih =>
    intro h
    have hc : c ≠ 10 := h c (by simp)
    have ht2 : ∀ x ∈ t2, x ≠ 10 := fun x hx => h x (by simp [hx])
    simp only [amp2Tail, dotsEnd_of_noNL ht2, Bool.and_true,
      show (c == 10) = false from by simp [hc], Bool.false_and, Bool.or_false]
    by_cases h45 : c = 45
    · subst h45
      simp [List.takeWhile_cons]
    · have h45ne : (45 : Nat) ≠ c := fun hh => h45 hh.symm
      rw [ih ht2]
      by_cases h38 : c = 38
      · subst h38
        simp [List.takeWhile_cons, List.contains_cons]
      · have h38ne : (38 : Nat) ≠ c := fun hh => h38 hh.symm
        have e38 : (c == 38) = false := by simp [h38]
        have e45 : (c != 45) = true := by simp [h45]
        simp [List.takeWhile_cons, List.contains_cons, h45, h45ne, h38, h38ne, e38, e45]

theorem amp3Tail_of_noNL : ∀ {t : List Nat}, (∀ c ∈ t, c ≠ 10) →
    amp3Tail t = (match t.dropWhile isB64Mod with
      | [] => false
      | c :: _ => c != 45) := by
  intro t
  induction t with
  | nil => intro _; rfl
  | cons c t2 ih =>
    intro h
    have ht2 : ∀ x ∈ t2, x ≠ 10 := fun x hx => h x (by simp [hx])
    simp only [amp3Tail, dotsEnd_of_noNL ht2, Bool.and_true]
    by_cases hb : isB64Mod c = true
    · rw [hb, List.dropWhile_cons_of_pos hb]
      simp only [Bool.not_true, Bool.false_and, Bool.true_and, Bool.false_or]
      exact ih ht2
    · have hbf : isB64Mod c = false := by
        cases hbb : isB64Mod c
        · rfl
        · exact absurd hbb hb
      rw [hbf, List.dropWhile_cons_of_neg (by simp [hbf])]
      simp

theorem endsDash_of_noNL {s : List Nat} (h : ∀ c ∈ s, c ≠ 10) :
    endsDash s = (s.head? == some 45) := by
  unfold endsDash
  rcases s with _ | ⟨d, v⟩
  · rfl
  · by_cases hd : d = 45
    · subst hd
      show dotsEnd v = _
      rw [dotsEnd_of_noNL (fun x hx => h x (by simp [hx]))]
      simp
    · split
      · rename_i heq
        injection heq with e1 _
        exact absurd e1 hd
      · simp [hd]

/-- The two-run scan only depends on the closing test through suffixes
of its input, so closing tests that agree on newline-free text give the
same scan on newline-free text. -/
theorem pairScan_congr {f g : List Nat → Bool} {t : List Nat} (h : ∀ c ∈ t, c ≠ 10)
    (hfg : ∀ s, (∀ c ∈ s, c ≠ 10) → f s = g s) :
    pairScan f t = pairScan g t := by
  simp only [pairScan]
  by_cases hb1 : (t.takeWhile (fun c => c != 45 && c != 38)).isEmpty = true
  · rw [if_pos hb1, if_pos hb1]
  · rw [if_neg hb1, if_neg hb1]
    split
    · rename_i u heq
      by_cases hb2 : (u.takeWhile (fun c => c != 45 && c != 38)).isEmpty = true
      · rw [if_pos hb2, if_pos hb2]
      · rw [if_neg hb2, if_neg hb2]
        refine hfg _ ?_
        intro x hx
        refine h x ?_
        have hxu : x ∈ u := List.mem_of_mem_drop hx
        have hxd : x ∈ t.drop (t.takeWhile (fun c => c != 45 && c != 38)).length := by
          rw [heq]
          simp [hxu]
        exact List.mem_of_mem_drop hxd
    · rfl

theorem nullShiftTail_of_noNL {t : List Nat} (h : ∀ c ∈ t, c ≠ 10) :
    nullShiftTail t = nullPairTail t :=
  pairScan_congr h (fun _ hs => endsDash_of_noNL hs)

/-- Bridge from the newline-aware scanners to the plain `anyAmp` scan
on newline-free text. -/
theorem rxUnclosed_of_noNL : ∀ {l : List Nat}, (∀ c ∈ l, c ≠ 10) →
    rxUnclosed l = anyAmp (fun t =>
      (t.takeWhile (fun c => c != 45)).contains 38 || !t.contains 45) l := by
  intro l
  induction l with
  | nil => intro _; rfl
  | cons c t ih =>
    intro h
    have hc : c ≠ 10 := h c (by simp)
    have ht : ∀ x ∈ t, x ≠ 10 := fun x hx => h x (by simp [hx])
    simp only [rxUnclosed, anyAmp, show (c != 10) = true from by simp [hc],
      Bool.true_and, amp2Tail_of_noNL ht, ih ht]

theorem rxBadB64_of_noNL : ∀ {l : List Nat}, (∀ c ∈ l, c ≠ 10) →
    rxBadB64 l = anyAmp (fun t =>
      match t.dropWhile isB64Mod with
      | [] => false
      | c :: _ => c != 45) l := by
  intro l
  induction l with
  | nil => intro _; rfl
  | cons c t ih =>
    intro h
    have hc : c ≠ 10 := h c (by simp)
    have ht : ∀ x ∈ t, x ≠ 10 := fun x hx => h x (by simp [hx])
    simp only [rxBadB64, anyAmp, show (c != 10) = true from by simp [hc],
      Bool.true_and, amp3Tail_of_noNL ht, ih ht]

theorem rxNullShift_of_noNL : ∀ {l : List Nat}, (∀ c ∈ l, c ≠ 10) →
    rxNullShift l = defectD l := by
  intro l
  induction l with
  | nil => intro _; rfl
  | cons c t ih =>
    intro h
    have hc : c ≠ 10 := h c (by simp)
    have ht : ∀ x ∈ t, x ≠ 10 := fun x hx => h x (by simp [hx])
    show _ = anyAmp nullPairTail (c :: t)
    simp only [rxNullShift, anyAmp, show (c != 10) = true from by simp [hc],
      Bool.true_and, nullShiftTail_of_noNL ht, ih ht]
    rfl

theorem rxBadChar_of_printable : ∀ {l : List Nat},
    (∀ c ∈ l, 0x20 ≤ c ∧ c ≤ 0x7E) → rxBadChar l = false := by
  intro l
  induction l with
  | nil => intro _; rfl
  | cons c t ih =>
    intro h
    have hc := h c (by simp)
    have ht : ∀ x ∈ t, 0x20 ≤ x ∧ x ≤ 0x7E := fun x hx => h x (by simp [hx])
    simp only [rxBadChar, ih ht, Bool.and_false, Bool.or_false]
    have h1 : decide (c < 0x20) = false := by simp; omega
    have h2 : decide (0x7E < c) = false := by simp; omega
    rw [h1, h2]
    rfl

theorem anyAmp_or (p q : List Nat → Bool) :
    ∀ l, anyAmp (fun t => p t || q t) l = (anyAmp p l || anyAmp q l) := by
  intro l
  induction l with
  | nil => rfl
  | cons c t ih =>
    simp only [anyAmp, ih, Bool.and_or_distrib_left]
    cases c == 38 <;> cases p t <;> cases q t <;> cases anyAmp p t <;> cases anyAmp q t <;> rfl

theorem anyAmp_congr {p q : List Nat → Bool} (h : ∀ t, p t = q t) :
    ∀ l, anyAmp p l = anyAmp q l := by
  intro l
  induction l with
  | nil => rfl
  | cons c t ih => simp only [anyAmp, h, ih]

/-- `isB64Mod` excludes `&` (38), `-` (45) and `=` (61). -/
theorem isB64Mod_ne {c : Nat} (h : isB64Mod c = true) : c ≠ 38 ∧ c ≠ 45 := by
  simp only [isB64Mod, Bool.or_eq_true, Bool.and_eq_true, decide_eq_true_eq,
    beq_iff_eq] at h
  omega

/-- Pointwise equivalence at one `&`: the tail tests of the second and
third regexes match exactly when the tail has defect (b) or (c). -/
theorem tail23_eq_defects (t : List Nat) :
    ((((t.takeWhile (fun c => c != 45)).contains 38 || !t.contains 45)) ||
      (match t.dropWhile isB64Mod with
        | [] => false
        | c :: _ => c != 45)) =
    ((!t.contains 45) ||
      (t.contains 45 && (t.takeWhile (fun c => c != 45)).any (fun c => !isB64Mod c))) := by
  induction t with
  | nil => rfl
  | cons c t' ih =>
    by_cases hc : c = 45
    · subst hc
      simp [List.takeWhile_cons, List.dropWhile_cons,
        show isB64Mod 45 = false from by decide]
    · have hcne : (c != 45) = true := by simp [hc]
      have e1 : List.takeWhile (fun x => x != 45) (c :: t')
          = c :: List.takeWhile (fun x => x != 45) t' := by
        simp [List.takeWhile_cons, hc]
      have h45ne : (45 : Nat) ≠ c := fun h => hc h.symm
      have e4 : (c :: t').contains 45 = t'.contains 45 := by
        simp [List.contains_cons, h45ne]
      by_cases hb : isB64Mod c = true
      · have hne := isB64Mod_ne hb
        have h38ne : (38 : Nat) ≠ c := fun h => hne.1 h.symm
        have e2 : List.dropWhile isB64Mod (c :: t') = List.dropWhile isB64Mod t' := by
          simp [List.dropWhile_cons, hb]
        have e3 : (c :: List.takeWhile (fun x => x != 45) t').contains 38
            = (List.takeWhile (fun x => x != 45) t').contains 38 := by
          simp [List.contains_cons, h38ne]
        have e5 : (c :: List.takeWhile (fun x => x != 45) t').any (fun x => !isB64Mod x)
            = (List.takeWhile (fun x => x != 45) t').any (fun x => !isB64Mod x) := by
          simp [hb]
        rw [e1, e2, e3, e4, e5]
        exact ih
      · have hbf : isB64Mod c = false := by
          cases h : isB64Mod c
          · rfl
          · exact absurd h hb
        have e2 : List.dropWhile isB64Mod (c :: t') = c :: t' := by
          simp [List.dropWhile_cons, hbf]
        have e5 : (c :: List.takeWhile (fun x => x != 45) t').any (fun x => !isB64Mod x)
            = true := by
          simp [hbf]
        rw [e1, e2, e4, e5]
        cases h45 : t'.contains 45 <;> simp [hcne]

theorem unclosed_or_badb64_eq (l : List Nat) :
    (anyAmp (fun t => (t.takeWhile (fun c => c != 45)).contains 38 || !t.contains 45) l ||
      anyAmp (fun t =>
        match t.dropWhile isB64Mod with
        | [] => false
        | c :: _ => c != 45) l) = (defectB l || defectC l) := by
  unfold defectB defectC
  rw [← anyAmp_or, ← anyAmp_or]
  exact anyAmp_congr (fun t => tail23_eq_defects t) l

/-- The format check fails exactly when one of the four regexes matches. -/
theorem check_error_iff (l : List Nat) :
    checkUtf7Format l = .error .format ↔
      (rxBadChar l || rxUnclosed l || rxBadB64 l || rxNullShift l) = true := by
  unfold checkUtf7Format
  split_ifs with h1 h2 h3 h4 <;> simp_all

theorem b64decodePy_error {l : List Nat} {e : DecodeErr}
    (h : b64decodePy l = .error e) : e = .b64 := by
  simp only [b64decodePy] at h
  split_ifs at h <;> simp_all

theorem utf16beDecode_error {bs : List Nat} {e : DecodeErr}
    (h : utf16beDecode bs = .error e) : e = .utf16 := by
  unfold utf16beDecode at h
  split at h
  · injection h with h2
    exact h2.symm
  · split at h
    · injection h with h2
      exact h2.symm
    · simp at h

theorem decodeModifiedUtf7_ne_format (sec : List Nat) :
    decodeModifiedUtf7 sec ≠ .error .format := by
  unfold decodeModifiedUtf7
  split
  · simp
  · intro hcontra
    split at hcontra
    · rename_i e heq
      injection hcontra with h2
      subst h2
      exact absurd (b64decodePy_error heq) (by simp)
    · exact absurd (utf16beDecode_error hcontra) (by simp)

/-- The substitution loop never produces a format error: its failures
are base64, UTF-16 or fuel failures. -/
theorem decodeLoop_ne_format : ∀ (fuel : Nat) (text : List Nat),
    decodeLoop fuel text ≠ .error .format := by
  intro fuel
  induction fuel with
  | zero => intro text; simp [decodeLoop]
  | succ n ih =>
    intro text
    simp only [decodeLoop]
    split
    · simp
    · split
      · rename_i heq
        intro hcontra
        injection hcontra with h2
        subst h2
        exact decodeModifiedUtf7_ne_format _ heq
      · exact ih _

/-- C5 counterexamples, refuting both directions of the claim.
`&A-` has none of the four defects, yet decoding it raises —
`binascii.Error` from `base64.b64decode("A===")`, not a FormatError.
Conversely `"a\nb\nc"` contains characters outside printable ASCII
(defect (a)), yet `decode_mutf7` returns it unchanged with no error at
all: `.` in `^.*[^\040-\176].*$` does not match a newline and `$` only
anchors at the end, so `re.match` finds no match — each newline has
either a newline before it or a non-final newline after it. -/
theorem c5_counterexample :
    decode_mutf7 (cp "&A-") = .error .b64 ∧
    (defectA (cp "&A-") || defectB (cp "&A-") || defectC (cp "&A-") ||
      defectD (cp "&A-")) = false ∧
    decode_mutf7 (cp "a\nb\nc") = .ok (cp "a\nb\nc") ∧
    defectA (cp "a\nb\nc") = true := by decide

/-- C5 amended: for inputs consisting only of printable ASCII
(0x20–0x7E), `decode_mutf7` raises the FormatError
(`InvalidUTF7FormatException`) exactly for the inputs having one of
defects (b), (c), (d) — an unterminated shift-in section, a non-base64
character inside a shift-in section, or two back-to-back non-empty
shift sections (defect (a) cannot occur in this range).  Outside that
range the claimed equivalence fails in both directions: a defect-free
printable input can still raise a base64 or UTF-16 decoding error, and
an input with non-printable characters can decode without any error,
because `.` and `$` in the checking regexes do not cross newlines (see
the counterexample). -/
theorem c5_format_error_iff (l : List Nat) (hp : ∀ c ∈ l, 0x20 ≤ c ∧ c ≤ 0x7E) :
    decode_mutf7 l = .error .format ↔
      (defectB l || defectC l || defectD l) = true := by
  have hnn : ∀ c ∈ l, c ≠ 10 := by
    intro c hc
    have := hp c hc
    omega
  have hregex : (rxBadChar l || rxUnclosed l || rxBadB64 l || rxNullShift l) =
      (defectB l || defectC l || defectD l) := by
    rw [rxBadChar_of_printable hp, rxUnclosed_of_noNL hnn, rxBadB64_of_noNL hnn,
      rxNullShift_of_noNL hnn, Bool.false_or, unclosed_or_badb64_eq l]
  unfold decode_mutf7
  rcases hchk : checkUtf7Format l with e | u
  · have he : e = .format := by
      unfold checkUtf7Format at hchk
      split_ifs at hchk <;> simp_all
    subst he
    simp only [true_iff]
    rw [← hregex]
    exact ((check_error_iff l).mp hchk)
  · constructor
    · intro h
      exact absurd h (decodeLoop_ne_format _ _)
    · intro h
      rw [← hregex] at h
      have := (check_error_iff l).mpr h
      rw [hchk] at this
      cases this

/-- C5 witness: the printable input `&&` satisfies the theorem's range
hypothesis and is rejected with a FormatError, having defect (b). -/
theorem c5_format_error_iff_witness :
    decode_mutf7 (cp "&&") = .error .format :=
  (c5_format_error_iff (cp "&&") (by decide)).mpr (by decide)

/-- C6 witness: a two-line listing with a `\Trash` folder and `INBOX`
under a count oracle answering 3 yields only the INBOX folder, which
satisfies all the conditions of the theorem. -/
theorem c6_special_use_excluded_witness :
    ∃ line ∈ [cp "(\\HasNoChildren \\Trash) \"/\" Trash", cp "(\\HasNoChildren) \"/\" INBOX"],
      testFlags (parseFolder line).1 = false ∧
      (∀ ig ∈ ignoreFlagsList, containsSub (92 :: ig) (parseFolder line).1 = false) ∧
      (⟨cp "INBOX", cp "INBOX", 3⟩ : ImapFolderRec).nameMutf7 = (parseFolder line).2.2 ∧
      (true = true → ∃ n, (fun _ => some 3) (⟨cp "INBOX", cp "INBOX", 3⟩ : ImapFolderRec).nameMutf7
        = some n ∧ n ≠ 0 ∧ (⟨cp "INBOX", cp "INBOX", 3⟩ : ImapFolderRec).count = Int.ofNat n) :=
  c6_special_use_excluded true (fun _ => some 3)
    [cp "(\\HasNoChildren \\Trash) \"/\" Trash", cp "(\\HasNoChildren) \"/\" INBOX"]
    ⟨cp "INBOX", cp "INBOX", 3⟩ (by decide)

/-- C1: the staged encoder cannot round-trip anything but the empty
string.  `result` is the `str` `""` while `__get_ascii` returns a
`bytes` object, so `result += __get_ascii(text)` — the first statement
of every entered loop iteration — raises `TypeError` in Python 3;
`encode_mutf7` therefore raises `TypeError` on every non-empty input.
Only the empty string returns (unchanged), and it decodes to itself. -/
theorem c1_encode_type_error :
    (∀ s : List Nat, s ≠ [] → encode_mutf7 s = .error .typeError) ∧
    encode_mutf7 [] = .ok (.str []) ∧
    decode_mutf7 [] = .ok [] := by
  refine ⟨?_, by decide, by decide⟩
  intro s hs
  unfold encode_mutf7
  rcases hrep : replaceAmp s with _ | ⟨c, t⟩
  · exact absurd hrep (replaceAmp_ne_nil hs)
  · rfl

/-- C1 witness: encoding the single printable character `A` raises
`TypeError`. -/
theorem c1_encode_type_error_witness :
    encode_mutf7 (cp "A") = .error .typeError :=
  c1_encode_type_error.1 (cp "A") (by decide)

end DonateMail
